import Mathlib

/-!
# Verification of the threlte-mcp command-correlation bridge

Shallow embedding of the two halves of the bridge:

* the control-plane side (`src/bridge-server.ts`, class `BridgeServer`):
  request correlator, pending-request table, timeout fallback, last-state
  cache, connection lifecycle;
* the runtime side (client `MCPBridge` class): command interpreter,
  object registry over the live scene graph, camera transition scheduler.

JavaScript `Map`s are embedded as association lists with unique keys
(uniqueness is carried as a hypothesis where a theorem needs it), the
JavaScript object heap as an association list from numeric node identities
to node records (object references become identities, so aliasing through
the registry is preserved), and JavaScript numbers as rationals.
Promise resolution and rejection are embedded as emitted events.
-/

set_option autoImplicit false
set_option linter.unusedSectionVars false

namespace ThrelteMCP

/-! ## Association lists (embedding of JavaScript `Map`) -/

variable {κ : Type} [DecidableEq κ] {α : Type}

/-- The `Map.get`: first value stored under `k`. -/
def alLookup : List (κ × α) → κ → Option α
  | [], _ => none
  | (k', v) :: t, k => if k' = k then some v else alLookup t k

/-- The `Map.set`: replace the value under `k` in place, or append a new entry. -/
def alSet : List (κ × α) → κ → α → List (κ × α)
  | [], k, v => [(k, v)]
  | (k', v') :: t, k, v => if k' = k then (k, v) :: t else (k', v') :: alSet t k v

/-- The `Map.delete`: drop the first entry stored under `k`. -/
def alErase : List (κ × α) → κ → List (κ × α)
  | [], _ => []
  | (k', v') :: t, k => if k' = k then t else (k', v') :: alErase t k

/-- The keys of an association list, in storage order. -/
def alKeys (l : List (κ × α)) : List κ := l.map Prod.fst

/-! ## Control-plane side: `BridgeServer` (src/bridge-server.ts)

The fields of `ServerState` embed the mutable fields of the class that the
claims touch: `pendingRequests`, `requestId`, `lastSceneState`, and the
connection predicate `isConnected()` (`client !== null && readyState OPEN`)
collapsed to one flag.  The per-request `setTimeout` timer is implicit: in
the source every `pendingRequests.delete` is paired with a `clearTimeout`
(and a firing timer deletes its own entry), so an entry is present exactly
while its timer is armed; `fireTimeout` below is the body of the timer
callback, guarded by the entry still being present. -/

/-- An inbound wire message (runtime → control plane), `handleMessage`'s
argument after `JSON.parse`.  `requestId` embeds the presence and value of
the `requestId` field, `hasData` the presence of the `data` field
(`'data' in message`), and `payload` is an abstract identity for the rest
of the message body. -/
structure InMsg where
  requestId : Option String
  hasData : Bool
  payload : Nat
deriving DecidableEq, Repr

/-- One entry of `pendingRequests`.  The timeout closure captures the
command, so the entry records the command's `action`; `resolve`/`reject`
are embedded as emitted `BridgeEvent`s. -/
structure PendingEntry where
  action : String
deriving DecidableEq, Repr

/-- Settlement of a pending request, embedding calls of the stored
`resolve`/`reject` callbacks. -/
inductive BridgeEvent where
  /-- The `pending.resolve(data)` for a matching response envelope. -/
  | resolved (rid : String)
  /-- The `resolve(this.lastSceneState)`: timeout fallback for the read-only
  query actions, carrying the cache value handed to the caller. -/
  | resolvedFromCache (rid : String) (cache : Option InMsg)
  /-- The `reject(new Error('Command timeout'))`. -/
  | rejectedTimeout (rid : String)
  /-- The `reject(new Error('Server closed'))` from `close()`. -/
  | rejectedClosed (rid : String)
deriving DecidableEq, Repr

/-- The mutable state of one `BridgeServer` instance. -/
structure ServerState where
  pending : List (String × PendingEntry)
  requestId : Nat
  lastSceneState : Option InMsg
  connected : Bool
deriving DecidableEq, Repr

/-- The identifier minted by `sendCommand`: `` `req_${++this.requestId}` ``. -/
def reqName (n : Nat) : String := "req_" ++ toString n

/-- The `BridgeServer.handleMessage` (bridge-server.ts lines 182-200): a message
with a `data` field becomes the last-state cache value; a message with a
`requestId` that matches a pending entry cancels its timer, removes the
entry and resolves the caller; otherwise it is dropped. -/
def handleMessage (s : ServerState) (m : InMsg) : ServerState × List BridgeEvent :=
  let cache1 := if m.hasData then some m else s.lastSceneState
  match m.requestId with
  | none => ({ s with lastSceneState := cache1 }, [])
  | some rid =>
    match alLookup s.pending rid with
    | none => ({ s with lastSceneState := cache1 }, [])
    | some _ =>
      ({ s with lastSceneState := cache1, pending := alErase s.pending rid },
       [BridgeEvent.resolved rid])

/-- Outcome of a `sendCommand` call as seen by its caller. -/
inductive SendOutcome where
  /-- The `throw new Error('No game client connected')`. -/
  | notConnected
  /-- The enriched envelope was transmitted; the promise stays pending. -/
  | sent (rid : String)
  /-- The `client.send` threw: timer cleared, entry removed, `reject(error)`. -/
  | sendFailed (rid : String)
deriving DecidableEq, Repr

/-- The `BridgeServer.sendCommand` (lines 202-234).  `transmitThrows` embeds
whether `this.client!.send(...)` throws synchronously. -/
def sendCommand (s : ServerState) (action : String) (transmitThrows : Bool) :
    ServerState × SendOutcome :=
  if s.connected = false then (s, SendOutcome.notConnected)
  else
    let n := s.requestId + 1
    let rid := reqName n
    let s1 := { s with requestId := n, pending := alSet s.pending rid ⟨action⟩ }
    if transmitThrows then
      ({ s1 with pending := alErase s1.pending rid }, SendOutcome.sendFailed rid)
    else (s1, SendOutcome.sent rid)

/-- The timer callback registered by `sendCommand` (lines 210-217), firing
for request `rid`: the entry is deleted, then the read-only query actions
resolve with the current last-state cache and every other action rejects
with a timeout error.  The guard on the entry still being present embeds
the fact that a cleared timer never fires. -/
def fireTimeout (s : ServerState) (rid : String) : ServerState × List BridgeEvent :=
  match alLookup s.pending rid with
  | none => (s, [])
  | some e =>
    let s1 := { s with pending := alErase s.pending rid }
    if e.action = "getFullSceneState" ∨ e.action = "findObjects" then
      (s1, [BridgeEvent.resolvedFromCache rid s.lastSceneState])
    else
      (s1, [BridgeEvent.rejectedTimeout rid])

/-- The `BridgeServer.close` (lines 236-247): the accept loop and client are
released, every pending request's timer is cleared and its caller rejected
with `'Server closed'`, and the table is cleared. -/
def closeServer (s : ServerState) : ServerState × List BridgeEvent :=
  ({ s with connected := false, pending := [] },
   s.pending.map (fun p => BridgeEvent.rejectedClosed p.1))

/-- The `ws.on('close', ...)` handler installed by `startServer`
(lines 122-125): it only drops the client reference (`this.client = null`);
it does not touch the pending table and settles no pending request. -/
def wsCloseHandler (s : ServerState) : ServerState × List BridgeEvent :=
  ({ s with connected := false }, [])

/-! ## Runtime side: the `MCPBridge` client class

The live three.js object graph is embedded as a heap: an association list
from numeric node identities to node records.  A JavaScript object reference
becomes a node identity, so the `objects` registry (`Map<string, Object3D>`)
aliases the graph exactly as in the source: detaching a node never deletes
its heap entry, it only unlinks it from its parent.  Orientation updates
performed by the external 3D-math library (`lookAt`, `getWorldDirection`,
`updateProjectionMatrix`) are outside this core per the spec's non-goals;
the model records the requested aim point (`lookTarget`) and keeps a stored
facing direction (`dir`) instead of recomputing Euler angles. -/

/-- A rational 3-vector (JavaScript numbers idealised as rationals). -/
structure Vec3 where
  x : ℚ
  y : ℚ
  z : ℚ
deriving DecidableEq, Repr

/-- Per-axis vector addition (`position.x += offset[0]` and friends). -/
def vadd (a b : Vec3) : Vec3 := ⟨a.x + b.x, a.y + b.y, a.z + b.z⟩

/-- The `from + (to - from) * t`, the three.js `lerp` formula, per component. -/
def lerpQ (a b t : ℚ) : ℚ := a + (b - a) * t

/-- The `Vector3.lerpVectors(from, to, t)`: per-axis linear interpolation. -/
def lerpVec (a b : Vec3) (t : ℚ) : Vec3 := ⟨lerpQ a.x b.x t, lerpQ a.y b.y t, lerpQ a.z b.z t⟩

/-- One scene-graph node (`THREE.Object3D` and subclasses).  Structure
links (`parent`, `children`) are by node identity.  `matOpacity = some _`
marks a node that carries a material (meshes); geometry parameters of the
external library are recorded, not interpreted. -/
structure NodeData where
  name : String := ""
  typ : String := ""
  pos : Vec3 := ⟨0, 0, 0⟩
  rot : Vec3 := ⟨0, 0, 0⟩
  scl : Vec3 := ⟨1, 1, 1⟩
  visible : Bool := true
  parent : Option Nat := none
  children : List Nat := []
  isCamera : Bool := false
  isPerspective : Bool := false
  fov : ℚ := 50
  near : ℚ := 1/10
  far : ℚ := 2000
  dir : Vec3 := ⟨0, 0, -1⟩
  lookTarget : Option Vec3 := none
  matOpacity : Option ℚ := none
  matTransparent : Bool := false
  geomKind : Option String := none
  color : Option String := none
  intensity : Option ℚ := none
deriving DecidableEq, Repr

/-- The object heap: node identities to node records. -/
abbrev Heap := List (Nat × NodeData)

/-- The `Object3D.getObjectByProperty` / `getObjectByName`: test the node
itself, then each child subtree in order, returning the first hit.  `fuel`
bounds the recursion depth (the heap size suffices for an acyclic graph;
on a cyclic graph the JavaScript original would not terminate). -/
def getByPred (h : Heap) (p : NodeData → Bool) : Nat → Nat → Option Nat
  | 0, _ => none
  | fuel + 1, id =>
    match alLookup h id with
    | none => none
    | some d =>
      if p d then some id
      else d.children.findSome? (fun c => getByPred h p fuel c)

/-- The node identities visited by a depth-`fuel` traversal from `id`:
the nodes reachable through `children` links. -/
def reachList (h : Heap) : Nat → Nat → List Nat
  | 0, _ => []
  | fuel + 1, id =>
    match alLookup h id with
    | none => [id]
    | some d => id :: d.children.flatMap (fun c => reachList h fuel c)

/-- The `String.split('/')`, keeping empty segments, over the character list. -/
def splitSlashAux : List Char → List Char → List String
  | [], acc => [String.mk acc.reverse]
  | c :: rest, acc =>
    if c = '/' then String.mk acc.reverse :: splitSlashAux rest []
    else splitSlashAux rest (c :: acc)

/-- The `nameOrPath.split('/')`. -/
def splitSlash (s : String) : List String := splitSlashAux s.toList []

/-- The `children.find(node => node.name === part || node.type === part)`. -/
def findChildSeg (h : Heap) : List Nat → String → Option Nat
  | [], _ => none
  | i :: rest, seg =>
    match alLookup h i with
    | some d => if d.name = seg ∨ d.typ = seg then some i else findChildSeg h rest seg
    | none => findChildSeg h rest seg

/-- The segment-by-segment walk of `findObject`'s path fallback. -/
def walkParts (h : Heap) : Nat → List String → Option Nat
  | cur, [] => some cur
  | cur, seg :: rest =>
    match alLookup h cur with
    | none => none
    | some d =>
      match findChildSeg h d.children seg with
      | none => none
      | some c => walkParts h c rest

/-- The `CameraTween` record of the client: one in-flight camera
transition.  Field names `from`/`to` of the source are keywords in Lean and
appear here as `fromPos`/`toPos`. -/
structure CameraTween where
  startTime : ℚ
  duration : ℚ
  fromPos : Vec3
  toPos : Vec3
  fromLookAt : Option Vec3 := none
  toLookAt : Option Vec3 := none
  fromFov : Option ℚ := none
  toFov : Option ℚ := none
  fromNear : Option ℚ := none
  toNear : Option ℚ := none
  fromFar : Option ℚ := none
  toFar : Option ℚ := none
deriving DecidableEq, Repr

/-- The mutable state of one `MCPBridge` instance together with the scene
graph it owns.  `wsOpen` embeds `ws !== null && ws.readyState === OPEN`. -/
structure ClientState where
  nodes : Heap
  rootId : Nat
  nextId : Nat
  objects : List (String × Nat)
  rotating : List (String × ℚ)
  cameraTween : Option CameraTween
  cameraLookAt : Option Vec3
  wsOpen : Bool
  optMaxDepth : Nat := 10
deriving DecidableEq, Repr

/-- The `scene.getObjectByName(n)` from the graph root. -/
def getByName (s : ClientState) (n : String) : Option Nat :=
  getByPred s.nodes (fun d => d.name = n) s.nodes.length s.rootId

/-- The `getActiveCamera`: `scene.getObjectByProperty('isCamera', true)`. -/
def getActiveCamera (s : ClientState) : Option Nat :=
  getByPred s.nodes (fun d => d.isCamera) s.nodes.length s.rootId

/-- The path-based fallback tier of `findObject`: split on `'/'`, walk the
segments from the graph root matching child name or type, and treat landing
back on the root sentinel as not-found. -/
def pathLookup (s : ClientState) (nameOrPath : String) : Option Nat :=
  match walkParts s.nodes s.rootId (splitSlash nameOrPath) with
  | none => none
  | some j => if j = s.rootId then none else some j

/-- The `MCPBridge.findObject` (two-tier lookup): the name registry first
(`objects.get`), then `scene.getObjectByName`, then the path walk. -/
def findObject (s : ClientState) (nameOrPath : String) : Option Nat :=
  match alLookup s.objects nameOrPath with
  | some oid => some oid
  | none =>
    match getByName s nameOrPath with
    | some oid => some oid
    | none => pathLookup s nameOrPath

/-- The `object.removeFromParent()`: if the node has a parent and occurs among
its children, unlink the first occurrence and null the parent pointer. -/
def removeFromParent (h : Heap) (id : Nat) : Heap :=
  match alLookup h id with
  | none => h
  | some d =>
    match d.parent with
    | none => h
    | some p =>
      match alLookup h p with
      | none => h
      | some pd =>
        if id ∈ pd.children then
          alSet (alSet h p { pd with children := pd.children.erase id })
            id { d with parent := none }
        else h

/-- The `parent.add(child)` for a parentless `child`: append it to the parent's
children and point its parent link back. -/
def addChild (h : Heap) (parentId childId : Nat) : Heap :=
  match alLookup h parentId, alLookup h childId with
  | some pd, some cd =>
    alSet (alSet h parentId { pd with children := pd.children ++ [childId] })
      childId { cd with parent := some parentId }
  | _, _ => h

mutual

/-- The `Object3D.clone()`: deep-copy the subtree rooted at `id`, allocating
fresh identities from `next` upward (the root clone first, as the source
constructs it first); the clone root starts parentless. -/
def cloneNode (h : Heap) (next fuel id : Nat) : Heap × Nat × Option Nat :=
  match fuel with
  | 0 => (h, next, none)
  | fuel' + 1 =>
    match alLookup h id with
    | none => (h, next, none)
    | some d =>
      let rootId := next
      let h0 := alSet h rootId { d with parent := none, children := [] }
      let r1 := cloneList h0 (next + 1) fuel' d.children rootId
      (alSet r1.1 rootId { d with parent := none, children := r1.2.2 }, r1.2.1, some rootId)
termination_by (fuel, 0)

/-- Clone each child subtree in order and hook it under `parentId`. -/
def cloneList (h : Heap) (next fuel : Nat) (ids : List Nat) (parentId : Nat) :
    Heap × Nat × List Nat :=
  match ids with
  | [] => (h, next, [])
  | i :: rest =>
    match cloneNode h next fuel i with
    | (h1, next1, none) => cloneList h1 next1 fuel rest parentId
    | (h1, next1, some cid) =>
      let h2 :=
        match alLookup h1 cid with
        | some cd => alSet h1 cid { cd with parent := some parentId }
        | none => h1
      let r3 := cloneList h2 next1 fuel rest parentId
      (r3.1, r3.2.1, cid :: r3.2.2)
termination_by (fuel, ids.length + 1)

end

/-- One row of the scene-state table (`SceneObjectData`).  The source
renders `position` as a fixed-decimal string; the model keeps the value. -/
structure SceneObjectData where
  name : String
  path : String
  typ : String
  pos : Vec3
  childCount : Nat
deriving DecidableEq, Repr

/-- The `data` payload of an interpreter result. -/
inductive ResData where
  /-- The `getSceneState` / `findObjects` rows. -/
  | items (l : List SceneObjectData)
  /-- The `getCameraState`: position, Euler rotation, aim point, and the
  perspective lens triple (fov, near, far) when applicable. -/
  | cam (pos rot look : Vec3) (lens : Option (ℚ × ℚ × ℚ))
  /-- The `getCameraState` with no camera: `{error: 'No camera found'}`. -/
  | camErr (msg : String)
deriving DecidableEq, Repr

/-- Interpreter result record `{success, error?, data?, id?}`. -/
structure CmdResult where
  success : Bool
  error : Option String := none
  resId : Option String := none
  data : Option ResData := none
deriving DecidableEq, Repr

/-- Stands for the `TypeError` thrown on an absent required string argument
(e.g. `undefined.split`) and captured by the dispatcher's catch-all. -/
def typeErrResult : CmdResult := { success := false, error := some "TypeError" }

/-- The `MCPBridge.removeObject`: resolve the handle, detach it from its
parent, and drop both its registry entry and any per-frame rotation entry
for that name. -/
def removeObject (s : ClientState) (nameArg : String) : ClientState × CmdResult :=
  match findObject s nameArg with
  | none => (s, { success := false, error := some ("Object not found: " ++ nameArg) })
  | some oid =>
    ({ s with nodes := removeFromParent s.nodes oid,
              objects := alErase s.objects nameArg,
              rotating := alErase s.rotating nameArg },
     { success := true })

/-- The `MCPBridge.duplicateObject`: resolve the source handle, deep-clone its
subtree, rename the clone, apply the positional offset to the clone's local
position, attach it under the source's current parent (or the graph root if
none), and register the new name.  The `none` clone branch is unreachable
for a well-formed (acyclic, closed) graph, where the fuel `|nodes| + 1`
covers every path. -/
def duplicateObject (s : ClientState) (src newName : String) (offset : Option Vec3) :
    ClientState × CmdResult :=
  match findObject s src with
  | none => (s, { success := false, error := some ("Source object not found: " ++ src) })
  | some sid =>
    match cloneNode s.nodes s.nextId (s.nodes.length + 1) sid with
    | (_, _, none) =>
      (s, { success := false, error := some ("Source object not found: " ++ src) })
    | (h1, next1, some cid) =>
      let h2 :=
        match alLookup h1 cid with
        | some cd => alSet h1 cid { cd with name := newName }
        | none => h1
      let h3 :=
        match offset, alLookup h2 cid with
        | some off, some cd => alSet h2 cid { cd with pos := vadd cd.pos off }
        | _, _ => h2
      let pid :=
        match alLookup h3 sid with
        | some d => d.parent.getD s.rootId
        | none => s.rootId
      let h4 := addChild h3 pid cid
      ({ s with nodes := h4, nextId := next1, objects := alSet s.objects newName cid },
       { success := true, resId := some newName })

/-- A decoded inbound command envelope as the client reads it (loosely
typed: every field optional except the action tag). -/
structure ClientCmd where
  action : String
  requestId : Option String := none
  maxDepth : Option Nat := none
  name : Option String := none
  path : Option String := none
  id : Option String := none
  newName : Option String := none
  nameContains : Option String := none
  type : Option String := none
  position : Option (List ℚ) := none
  rotation : Option (List ℚ) := none
  scale : Option (List ℚ) := none
  offset : Option (List ℚ) := none
  target : Option (List ℚ) := none
  lookAt : Option (List ℚ) := none
  visible : Option Bool := none
  opacity : Option ℚ := none
  speed : Option ℚ := none
  animate : Option Bool := none
  duration : Option ℚ := none
  fov : Option ℚ := none
  near : Option ℚ := none
  far : Option ℚ := none
  color : Option String := none
  intensity : Option ℚ := none
deriving DecidableEq, Repr

/-- JavaScript `a || b` on possibly-absent strings (`""` is falsy). -/
def jsOr (a b : Option String) : Option String :=
  match a with
  | some x => if x = "" then b else some x
  | none => b

/-- JavaScript `a || b` with a string default. -/
def jsOrStr (a : Option String) (b : String) : String :=
  match a with
  | some x => if x = "" then b else x
  | none => b

/-- Truthiness of a possibly-absent string filter field. -/
def strT : Option String → Bool
  | none => false
  | some x => decide (x ≠ "")

/-- A three-component JavaScript array as a vector.  A shorter array would
poison the coordinates with `NaN` in the source; the model treats it as
absent (no claim exercises that path). -/
def toVec3Exact : List ℚ → Option Vec3
  | [x, y, z] => some ⟨x, y, z⟩
  | _ => none

/-- The `hay.includes(sub)` on character lists. -/
def includesAux (sub : List Char) : List Char → Bool
  | [] => sub.isEmpty
  | c :: rest => sub.isPrefixOf (c :: rest) || includesAux sub rest

/-- The `String.prototype.includes`. -/
def strIncludes (hay sub : String) : Bool := includesAux sub.toList hay.toList

/-- The `traverse` callback chain of `getSceneState`: emit the row for the
node, then the rows of each child one level deeper, until the depth budget
(`fuel = depth-remaining + 1`) is spent.  Child path segments use
`child.name || index`. -/
def sceneStateAux (h : Heap) : Nat → Nat → String → List SceneObjectData
  | 0, _, _ => []
  | fuel + 1, id, path =>
    match alLookup h id with
    | none => []
    | some d =>
      { name := if d.name = "" then "[" ++ d.typ ++ "]" else d.name,
        path := path, typ := d.typ, pos := d.pos, childCount := d.children.length } ::
      (d.children.enum.flatMap fun ic =>
        sceneStateAux h fuel ic.2
          (path ++ "/" ++
            (match alLookup h ic.2 with
             | some cd => if cd.name = "" then toString ic.1 else cd.name
             | none => toString ic.1)))

/-- The `MCPBridge.getSceneState(maxDepth?)`: rows for the root's children at
depth 0 (default budget from the options record). -/
def getSceneState (s : ClientState) (maxDepth : Option Nat) : List SceneObjectData :=
  let depth := maxDepth.getD s.optMaxDepth
  match alLookup s.nodes s.rootId with
  | none => []
  | some rd =>
    rd.children.enum.flatMap fun ic =>
      sceneStateAux s.nodes (depth + 1) ic.2
        (match alLookup s.nodes ic.2 with
         | some cd => if cd.name = "" then toString ic.1 else cd.name
         | none => toString ic.1)

/-- The `getObjectPath`: labels from the graph root down to the node, walking
the parent chain and stopping at the root sentinel (`name || type` labels). -/
def getObjectPath (s : ClientState) : Nat → Nat → List String
  | 0, _ => []
  | fuel + 1, id =>
    if id = s.rootId then []
    else
      match alLookup s.nodes id with
      | none => []
      | some d =>
        (match d.parent with
         | none => []
         | some p => getObjectPath s fuel p) ++ [if d.name = "" then d.typ else d.name]

/-- The `MCPBridge.findObjects`: pre-order scene traversal applying the
name / name-contains / type filter; only applied filters constrain, and at
least one filter must be present for a node to be reported. -/
def findObjectsSearch (s : ClientState) (fname fnameContains ftype : Option String) :
    List SceneObjectData :=
  (reachList s.nodes s.nodes.length s.rootId).filterMap fun id =>
    match alLookup s.nodes id with
    | none => none
    | some d =>
      let m1 : Bool := !(strT fname && !(d.name == fname.getD ""))
      let m2 : Bool := !(strT fnameContains && !(strIncludes d.name (fnameContains.getD "")))
      let m3 : Bool := !(strT ftype && !(d.typ == ftype.getD ""))
      let anyF : Bool := strT fname || strT fnameContains || strT ftype
      if m1 && m2 && m3 && anyF then
        some { name := if d.name = "" then "[" ++ d.typ ++ "]" else d.name,
               path := String.intercalate "/" (getObjectPath s s.nodes.length id),
               typ := d.typ, pos := d.pos, childCount := d.children.length }
      else none

/-- The `MCPBridge.moveObject`: resolve the handle and set its local position.
An absent or short position array would write `NaN` coordinates in the
source while still reporting success; the model leaves the position
unchanged in that case, with the same success result. -/
def moveObjectH (s : ClientState) (nameOrPath : Option String)
    (positionL : Option (List ℚ)) : ClientState × CmdResult :=
  match nameOrPath with
  | none => (s, typeErrResult)
  | some np =>
    match findObject s np with
    | none => (s, { success := false, error := some ("Object not found: " ++ np) })
    | some oid =>
      match alLookup s.nodes oid, positionL.bind toVec3Exact with
      | some d, some v =>
        ({ s with nodes := alSet s.nodes oid { d with pos := v } }, { success := true })
      | _, _ => (s, { success := true })

/-- The `MCPBridge.setTransform` for `rotation` / `scale`. -/
def setTransformH (s : ClientState) (name : Option String) (isRotation : Bool)
    (vals : Option (List ℚ)) : ClientState × CmdResult :=
  match name with
  | none => (s, typeErrResult)
  | some n =>
    match findObject s n with
    | none => (s, { success := false, error := some ("Object not found: " ++ n) })
    | some oid =>
      match alLookup s.nodes oid, vals.bind toVec3Exact with
      | some d, some v =>
        let d' := if isRotation then { d with rot := v } else { d with scl := v }
        ({ s with nodes := alSet s.nodes oid d' }, { success := true })
      | _, _ => (s, { success := true })

/-- The `MCPBridge.setVisibility` (an absent flag is assigned as-is in the
source, acting falsy; the model reads it as `false`). -/
def setVisibilityH (s : ClientState) (name : Option String) (v : Option Bool) :
    ClientState × CmdResult :=
  match name with
  | none => (s, typeErrResult)
  | some n =>
    match findObject s n with
    | none => (s, { success := false, error := some ("Object not found: " ++ n) })
    | some oid =>
      match alLookup s.nodes oid with
      | some d =>
        ({ s with nodes := alSet s.nodes oid { d with visible := v.getD false } },
         { success := true })
      | none => (s, { success := true })

/-- The `MCPBridge.lookAt`: the orientation change is external 3D math; the
model records the requested aim point on the node. -/
def lookAtH (s : ClientState) (name : Option String) (target : Option (List ℚ)) :
    ClientState × CmdResult :=
  match name with
  | none => (s, typeErrResult)
  | some n =>
    match findObject s n with
    | none => (s, { success := false, error := some ("Object not found: " ++ n) })
    | some oid =>
      match alLookup s.nodes oid with
      | some d =>
        ({ s with nodes := alSet s.nodes oid { d with lookTarget := target.bind toVec3Exact } },
         { success := true })
      | none => (s, { success := true })

/-- The `MCPBridge.setOpacity`: over the subtree of the handle, every node
carrying a material gets the opacity and `transparent = opacity < 1`
(subtree computed by the same traversal bound; update order immaterial). -/
def setOpacityH (s : ClientState) (name : Option String) (opacity : Option ℚ) :
    ClientState × CmdResult :=
  match name with
  | none => (s, typeErrResult)
  | some n =>
    match findObject s n with
    | none => (s, { success := false, error := some ("Object not found: " ++ n) })
    | some oid =>
      let op := opacity.getD 1
      let h' := (reachList s.nodes s.nodes.length oid).foldl
        (fun h id =>
          match alLookup h id with
          | some d =>
            if d.matOpacity.isSome then
              alSet h id { d with matTransparent := decide (op < 1), matOpacity := some op }
            else h
          | none => h) s.nodes
      ({ s with nodes := h' }, { success := true })

/-- The `getCameraLookAt`: the cached aim point if any, else the camera position
plus its facing direction (`getWorldDirection` is external math; the model
uses the stored direction). -/
def getCameraLookAtD (s : ClientState) (camId : Nat) : Vec3 :=
  match s.cameraLookAt with
  | some v => v
  | none =>
    match alLookup s.nodes camId with
    | some d => vadd d.pos d.dir
    | none => ⟨0, 0, -1⟩

/-- The `MCPBridge.getCameraState`. -/
def getCameraStateD (s : ClientState) : ResData :=
  match getActiveCamera s with
  | none => ResData.camErr "No camera found"
  | some camId =>
    match alLookup s.nodes camId with
    | none => ResData.camErr "No camera found"
    | some d =>
      ResData.cam d.pos d.rot (getCameraLookAtD s camId)
        (if d.isPerspective then some (d.fov, d.near, d.far) else none)

/-- The `MCPBridge.setCameraPosition` (lines 658-734): validate the position
triple, then either record a `CameraTween` starting now (animate with a
positive duration) or apply position, aim point, and any requested lens
parameters immediately and clear the in-flight tween. -/
def setCameraPosition (s : ClientState) (now : ℚ) (c : ClientCmd) :
    ClientState × CmdResult :=
  match getActiveCamera s with
  | none => (s, { success := false, error := some "No camera found" })
  | some camId =>
    match c.position.bind toVec3Exact with
    | none => (s, { success := false, error := some "Invalid camera position" })
    | some target =>
      match alLookup s.nodes camId with
      | none => (s, { success := false, error := some "No camera found" })
      | some cam =>
        let targetLookAt := c.lookAt.bind toVec3Exact
        let animate := c.animate.getD false
        let duration : ℚ := match c.duration with | some d => max 0 d | none => 0
        let wantsLens : Bool :=
          cam.isPerspective && (c.fov.isSome || c.near.isSome || c.far.isSome)
        if animate = true ∧ 0 < duration then
          let base : CameraTween :=
            { startTime := now, duration := duration, fromPos := cam.pos, toPos := target }
          let t1 :=
            match targetLookAt with
            | some tla =>
              { base with fromLookAt := some (getCameraLookAtD s camId), toLookAt := some tla }
            | none => base
          let t2 :=
            if wantsLens then
              { t1 with fromFov := some cam.fov, fromNear := some cam.near,
                        fromFar := some cam.far,
                        toFov := some (c.fov.getD cam.fov),
                        toNear := some (c.near.getD cam.near),
                        toFar := some (c.far.getD cam.far) }
            else t1
          ({ s with cameraTween := some t2 }, { success := true })
        else
          let cam1 := { cam with pos := target }
          let cam2 :=
            match targetLookAt with
            | some tla => { cam1 with lookTarget := some tla }
            | none => cam1
          let la' := match targetLookAt with | some tla => some tla | none => s.cameraLookAt
          let cam3 :=
            if wantsLens then
              { cam2 with fov := c.fov.getD cam2.fov, near := c.near.getD cam2.near,
                          far := c.far.getD cam2.far }
            else cam2
          ({ s with nodes := alSet s.nodes camId cam3, cameraTween := none,
                    cameraLookAt := la' },
           { success := true })

/-- The `MCPBridge.addPrimitive`: build a mesh node for a recognized shape kind
(geometry parameters belong to the external library and are recorded as the
kind), default-name it with the clock when unnamed, position it, attach it
to the graph root, and register it. -/
def addPrimitive (s : ClientState) (now : ℚ) (c : ClientCmd) : ClientState × CmdResult :=
  let tyRaw := c.type.getD "undefined"
  let kind : Option String :=
    match (c.type.getD "").toLower with
    | "cube" => some "box"
    | "box" => some "box"
    | "sphere" => some "sphere"
    | "cylinder" => some "cylinder"
    | "plane" => some "plane"
    | _ => none
  match kind with
  | none => (s, { success := false, error := some ("Unknown primitive type: " ++ tyRaw) })
  | some k =>
    let nm := jsOrStr c.name ("mcp_" ++ tyRaw ++ "_" ++ toString now)
    let node : NodeData :=
      { name := nm, typ := "Mesh",
        pos := (c.position.bind toVec3Exact).getD ⟨0, 0, 0⟩,
        matOpacity := some 1, geomKind := some k,
        color := some (jsOrStr c.color "#ffffff") }
    let h1 := alSet s.nodes s.nextId node
    let h2 := addChild h1 s.rootId s.nextId
    ({ s with nodes := h2, nextId := s.nextId + 1, objects := alSet s.objects nm s.nextId },
     { success := true, resId := some nm })

/-- The `MCPBridge.addLight`: as `addPrimitive` for the four light kinds, with
`intensity ?? 1` and `color || '#ffffff'`. -/
def addLight (s : ClientState) (now : ℚ) (c : ClientCmd) : ClientState × CmdResult :=
  let tyRaw := c.type.getD "undefined"
  let kind : Option String :=
    match (c.type.getD "").toLower with
    | "point" => some "PointLight"
    | "directional" => some "DirectionalLight"
    | "spot" => some "SpotLight"
    | "ambient" => some "AmbientLight"
    | _ => none
  match kind with
  | none => (s, { success := false, error := some ("Unknown light type: " ++ tyRaw) })
  | some k =>
    let nm := jsOrStr c.name ("mcp_" ++ tyRaw ++ "Light_" ++ toString now)
    let node : NodeData :=
      { name := nm, typ := k,
        pos := (c.position.bind toVec3Exact).getD ⟨0, 0, 0⟩,
        color := some (jsOrStr c.color "#ffffff"),
        intensity := some (c.intensity.getD 1) }
    let h1 := alSet s.nodes s.nextId node
    let h2 := addChild h1 s.rootId s.nextId
    ({ s with nodes := h2, nextId := s.nextId + 1, objects := alSet s.objects nm s.nextId },
     { success := true, resId := some nm })

/-- A response frame sent by `sendResponse`: `{requestId, ...payload}`. -/
structure WireResponse where
  requestId : String
  body : CmdResult
deriving DecidableEq, Repr

/-- The `MCPBridge.sendResponse`: transmit only while the socket is open and a
(truthy) `requestId` was carried. -/
def sendResponse (s : ClientState) (rid : Option String) (r : CmdResult) :
    Option WireResponse :=
  match rid with
  | some i => if s.wsOpen = true ∧ i ≠ "" then some ⟨i, r⟩ else none
  | none => none

/-- The action tags of `handleCommand`'s dispatch table. -/
def knownActions : List String :=
  ["getFullSceneState", "findObjects", "moveObject", "moveSceneObject",
   "setRotation", "setScale", "setVisibility", "lookAt", "setOpacity",
   "getCameraState", "setCameraPosition", "addObject", "addPrimitive",
   "removeObject", "duplicateObject", "startRotation", "stopRotation",
   "addLight"]

/-- The `MCPBridge.handleCommand` (lines 387-475): dispatch on the action tag to
exactly one handler; actions outside the table produce the structured
failure `{success:false, error}`; the try/catch around the dispatch is
embedded by the handlers being total functions whose error paths return
structured failures; finally `sendResponse` echoes the result under the
carried `requestId`. -/
def handleCommand (s : ClientState) (now : ℚ) (c : ClientCmd) :
    ClientState × CmdResult × Option WireResponse :=
  let res : ClientState × CmdResult :=
    if c.action = "getFullSceneState" then
      (s, { success := true, data := some (ResData.items (getSceneState s c.maxDepth)) })
    else if c.action = "findObjects" then
      (s, { success := true,
            data := some (ResData.items (findObjectsSearch s c.name c.nameContains c.type)) })
    else if c.action = "moveObject" ∨ c.action = "moveSceneObject" then
      moveObjectH s (jsOr c.name c.path) c.position
    else if c.action = "setRotation" then setTransformH s c.name true c.rotation
    else if c.action = "setScale" then setTransformH s c.name false c.scale
    else if c.action = "setVisibility" then setVisibilityH s c.name c.visible
    else if c.action = "lookAt" then lookAtH s c.name c.target
    else if c.action = "setOpacity" then setOpacityH s c.name c.opacity
    else if c.action = "getCameraState" then
      (s, { success := true, data := some (getCameraStateD s) })
    else if c.action = "setCameraPosition" then setCameraPosition s now c
    else if c.action = "addObject" ∨ c.action = "addPrimitive" then addPrimitive s now c
    else if c.action = "removeObject" then
      (match jsOr c.name c.id with
       | some n => removeObject s n
       | none => (s, typeErrResult))
    else if c.action = "duplicateObject" then
      (match c.name with
       | some n => duplicateObject s n (c.newName.getD "undefined") (c.offset.bind toVec3Exact)
       | none => (s, typeErrResult))
    else if c.action = "startRotation" then
      let sp : ℚ := match c.speed with | some v => if v = 0 then 1 else v | none => 1
      ({ s with rotating := alSet s.rotating (c.id.getD "undefined") sp }, { success := true })
    else if c.action = "stopRotation" then
      ({ s with rotating := alErase s.rotating (c.id.getD "undefined") }, { success := true })
    else if c.action = "addLight" then addLight s now c
    else (s, { success := false, error := some ("Unknown action: " ++ c.action) })
  (res.1, res.2, sendResponse res.1 c.requestId res.2)

/-- The interpolation parameter of `update`: duration clamped at 0; a zero
duration completes immediately; otherwise `min(1, (now - start)/duration)`
(the source has no lower clamp). -/
def tweenParam (tw : CameraTween) (now : ℚ) : ℚ :=
  let d := max 0 tw.duration
  if d = 0 then 1 else min 1 ((now - tw.startTime) / d)

/-- The lens part of the tween tick: for a perspective camera each lens
parameter whose from/to pair was recorded is interpolated at `t`
(unspecified parameters stay untouched); a non-perspective camera is left
alone (`updateProjectionMatrix` has no observable effect in the model). -/
def tweenApplyLens (tw : CameraTween) (t : ℚ) (cd : NodeData) : NodeData :=
  if cd.isPerspective then
    let cd1 := match tw.fromFov, tw.toFov with
               | some a, some b => { cd with fov := lerpQ a b t }
               | _, _ => cd
    let cd2 := match tw.fromNear, tw.toNear with
               | some a, some b => { cd1 with near := lerpQ a b t }
               | _, _ => cd1
    match tw.fromFar, tw.toFar with
    | some a, some b => { cd2 with far := lerpQ a b t }
    | _, _ => cd2
  else cd

/-- The camera-tween block of `MCPBridge.update` (lines 304-350): with no
camera the tween is dropped; otherwise the camera position is the per-axis
lerp of the endpoints at `t`, a requested aim point is interpolated and
cached, the requested lens parameter pairs are interpolated for a
perspective camera, and the tween is cleared once `t ≥ 1`. -/
def tweenStep (s : ClientState) (now : ℚ) : ClientState :=
  match s.cameraTween with
  | none => s
  | some tw =>
    match getActiveCamera s with
    | none => { s with cameraTween := none }
    | some camId =>
      let t := tweenParam tw now
      let s1 :=
        match alLookup s.nodes camId with
        | some cd =>
          { s with nodes := alSet s.nodes camId { cd with pos := lerpVec tw.fromPos tw.toPos t } }
        | none => s
      let s2 :=
        match tw.toLookAt with
        | some tgt =>
          let cur := lerpVec (tw.fromLookAt.getD tgt) tgt t
          (match alLookup s1.nodes camId with
           | some cd =>
             { s1 with nodes := alSet s1.nodes camId { cd with lookTarget := some cur },
                       cameraLookAt := some cur }
           | none => { s1 with cameraLookAt := some cur })
        | none => s1
      let s3 :=
        match alLookup s2.nodes camId with
        | some cd => { s2 with nodes := alSet s2.nodes camId (tweenApplyLens tw t cd) }
        | none => s2
      if t ≥ 1 then { s3 with cameraTween := none } else s3

/-- One step of the rotating-objects loop of `update`:
`obj.rotation.y += speed * 0.016`. -/
def rotateOne (s : ClientState) (idName : String) (speed : ℚ) : ClientState :=
  match (match alLookup s.objects idName with
         | some oid => some oid
         | none => getByName s idName) with
  | none => s
  | some oid =>
    match alLookup s.nodes oid with
    | none => s
    | some d =>
      let d' := { d with rot := { d.rot with y := d.rot.y + speed * (2/125) } }
      { s with nodes := alSet s.nodes oid d' }

/-- The rotating-objects loop of `update`. -/
def applyRotations (s : ClientState) : ClientState :=
  s.rotating.foldl (fun st p => rotateOne st p.1 p.2) s

/-- The `MCPBridge.update` (lines 295-351): advance the per-frame rotation
entries, then the camera tween, at clock reading `now`. -/
def update (s : ClientState) (now : ℚ) : ClientState := tweenStep (applyRotations s) now

/-- Every node identity of the heap lies below the allocation counter (the
freshness invariant of JavaScript object identity). -/
def heapBound (h : Heap) (n : Nat) : Prop := ∀ k ∈ alKeys h, k < n

/-- Concrete fixture: a scene with one registered mesh at `[1,2,3]` and a
perspective camera at `[0,0,10]`.  Used by witnesses only. -/
def demoScene : ClientState :=
  { nodes := [(0, { name := "", typ := "Scene", children := [1, 2] }),
              (1, { name := "box", typ := "Mesh", pos := ⟨1, 2, 3⟩, parent := some 0,
                    matOpacity := some 1 }),
              (2, { name := "cam", typ := "PerspectiveCamera", pos := ⟨0, 0, 10⟩,
                    parent := some 0, isCamera := true, isPerspective := true })],
    rootId := 0, nextId := 3, objects := [("box", 1)], rotating := [],
    cameraTween := none, cameraLookAt := none, wsOpen := true }

/-- Concrete fixture: an in-flight camera transition of duration 2000
started at clock 100.  Used by witnesses only. -/
def demoTween : CameraTween :=
  { startTime := 100, duration := 2000, fromPos := ⟨0, 0, 10⟩, toPos := ⟨10, 20, 30⟩ }

/-- Concrete fixture: two distinct nodes both named `"a"`, one of them
registered and rotating.  Used by the duplicate-name counterexample. -/
def twinScene : ClientState :=
  { nodes := [(0, { name := "", typ := "Scene", children := [1, 2] }),
              (1, { name := "a", typ := "Mesh", parent := some 0 }),
              (2, { name := "a", typ := "Mesh", parent := some 0 })],
    rootId := 0, nextId := 3, objects := [("a", 1)], rotating := [("a", 1)],
    cameraTween := none, cameraLookAt := none, wsOpen := true }

/-! ## Lemmas about the association-list embedding of `Map` -/

@[simp] theorem alLookup_nil (k : κ) : alLookup ([] : List (κ × α)) k = none := rfl

@[simp] theorem alKeys_nil : alKeys ([] : List (κ × α)) = [] := rfl

@[simp] theorem alKeys_cons (p : κ × α) (t : List (κ × α)) :
    alKeys (p :: t) = p.1 :: alKeys t := rfl

theorem alLookup_mem_keys {l : List (κ × α)} {k : κ} {v : α}
    (h : alLookup l k = some v) : k ∈ alKeys l := by
  induction l with
  | nil => simp [alLookup] at h
  | cons p t ih =>
    obtain ⟨k', v'⟩ := p
    by_cases hk : k' = k
    · subst hk; simp [alKeys]
    · simp only [alLookup, if_neg hk] at h
      rw [alKeys_cons]
      exact List.mem_cons_of_mem _ (ih h)

theorem alLookup_eq_none_of_not_mem {l : List (κ × α)} {k : κ}
    (h : k ∉ alKeys l) : alLookup l k = none := by
  induction l with
  | nil => rfl
  | cons p t ih =>
    obtain ⟨k', v'⟩ := p
    simp only [alKeys_cons, List.mem_cons, not_or] at h
    simp [alLookup, Ne.symm h.1, ih h.2]

@[simp] theorem alLookup_alSet_self (l : List (κ × α)) (k : κ) (v : α) :
    alLookup (alSet l k v) k = some v := by
  induction l with
  | nil => simp [alSet, alLookup]
  | cons p t ih =>
    obtain ⟨k', v'⟩ := p
    by_cases hk : k' = k
    · simp [alSet, hk, alLookup]
    · simp [alSet, hk, alLookup, ih]

theorem alLookup_alSet_ne (l : List (κ × α)) (k k' : κ) (v : α) (h : k' ≠ k) :
    alLookup (alSet l k v) k' = alLookup l k' := by
  induction l with
  | nil => simp [alSet, alLookup, Ne.symm h]
  | cons p t ih =>
    obtain ⟨k₀, v₀⟩ := p
    by_cases hk : k₀ = k
    · subst hk; simp [alSet, alLookup, Ne.symm h]
    · simp only [alSet, if_neg hk]
      by_cases hk' : k₀ = k'
      · simp [alLookup, hk']
      · simp [alLookup, hk', ih]

theorem alLookup_alErase_ne (l : List (κ × α)) (k k' : κ) (h : k' ≠ k) :
    alLookup (alErase l k) k' = alLookup l k' := by
  induction l with
  | nil => rfl
  | cons p t ih =>
    obtain ⟨k₀, v₀⟩ := p
    by_cases hk : k₀ = k
    · subst hk; simp [alErase, alLookup, Ne.symm h]
    · by_cases hk' : k₀ = k'
      · subst hk'; simp [alErase, hk, alLookup]
      · simp [alErase, hk, alLookup, hk', ih]

theorem alLookup_alErase_self {l : List (κ × α)} {k : κ}
    (hnd : (alKeys l).Nodup) : alLookup (alErase l k) k = none := by
  induction l with
  | nil => rfl
  | cons p t ih =>
    obtain ⟨k₀, v₀⟩ := p
    simp only [alKeys_cons, List.nodup_cons] at hnd
    by_cases hk : k₀ = k
    · subst hk
      simp only [alErase, if_pos rfl]
      exact alLookup_eq_none_of_not_mem hnd.1
    · simp [alErase, hk, alLookup, ih hnd.2]

theorem alErase_alSet_fresh {l : List (κ × α)} {k : κ} (v : α)
    (h : alLookup l k = none) : alErase (alSet l k v) k = l := by
  induction l with
  | nil => simp [alSet, alErase]
  | cons p t ih =>
    obtain ⟨k₀, v₀⟩ := p
    by_cases hk : k₀ = k
    · simp [alLookup, hk] at h
    · simp only [alLookup, if_neg hk] at h
      simp [alSet, hk, alErase, ih h]

theorem alKeys_alErase_subset (l : List (κ × α)) (k : κ) :
    alKeys (alErase l k) ⊆ alKeys l := by
  induction l with
  | nil => simp [alErase]
  | cons p t ih =>
    obtain ⟨k₀, v₀⟩ := p
    intro x hx
    by_cases hk : k₀ = k
    · simp only [alErase, if_pos hk] at hx
      rw [alKeys_cons]
      exact List.mem_cons_of_mem _ hx
    · simp only [alErase, if_neg hk, alKeys_cons] at hx
      rw [alKeys_cons]
      rcases List.mem_cons.mp hx with h | h
      · exact List.mem_cons.mpr (Or.inl h)
      · exact List.mem_cons_of_mem _ (ih h)

theorem alKeys_alErase_nodup {l : List (κ × α)} (k : κ)
    (hnd : (alKeys l).Nodup) : (alKeys (alErase l k)).Nodup := by
  induction l with
  | nil => simp [alErase]
  | cons p t ih =>
    obtain ⟨k₀, v₀⟩ := p
    simp only [alKeys_cons, List.nodup_cons] at hnd
    by_cases hk : k₀ = k
    · simpa [alErase, hk] using hnd.2
    · simp only [alErase, if_neg hk, alKeys_cons, List.nodup_cons]
      exact ⟨fun hmem => hnd.1 (alKeys_alErase_subset t k hmem), ih hnd.2⟩

theorem alKeys_alSet_mem {l : List (κ × α)} {k : κ} {v : α} {x : κ}
    (h : x ∈ alKeys (alSet l k v)) : x ∈ alKeys l ∨ x = k := by
  induction l with
  | nil => simpa [alSet, alKeys] using h
  | cons p t ih =>
    obtain ⟨k₀, v₀⟩ := p
    by_cases hk : k₀ = k
    · subst hk
      simp only [alSet, if_pos rfl, alKeys_cons] at h
      rcases List.mem_cons.mp h with h | h
      · exact Or.inr h
      · exact Or.inl (List.mem_cons_of_mem _ h)
    · simp only [alSet, if_neg hk, alKeys_cons] at h
      rcases List.mem_cons.mp h with h | h
      · exact Or.inl (by rw [alKeys_cons]; exact List.mem_cons.mpr (Or.inl h))
      · rcases ih h with h' | h'
        · exact Or.inl (by rw [alKeys_cons]; exact List.mem_cons_of_mem _ h')
        · exact Or.inr h'

/-! ## Lemmas about the scene-graph traversals -/

theorem findSome?_exists {l : List Nat} {f : Nat → Option Nat} {j : Nat}
    (h : l.findSome? f = some j) : ∃ c ∈ l, f c = some j := by
  induction l with
  | nil => simp [List.findSome?] at h
  | cons c t ih =>
    rw [List.findSome?_cons] at h
    split at h
    · rename_i v hc
      exact ⟨c, List.mem_cons_self c t, by rw [hc]; exact h⟩
    · obtain ⟨c', hc', hf⟩ := ih h
      exact ⟨c', List.mem_cons_of_mem _ hc', hf⟩

/-- A hit of the property traversal is a reachable node satisfying the
predicate. -/
theorem getByPred_found {h : Heap} {p : NodeData → Bool} :
    ∀ {fuel id j : Nat}, getByPred h p fuel id = some j →
      j ∈ reachList h fuel id ∧ ∃ dj, alLookup h j = some dj ∧ p dj = true := by
  intro fuel
  induction fuel with
  | zero => intro id j hj; simp [getByPred] at hj
  | succ f ih =>
    intro id j hj
    rw [getByPred] at hj
    split at hj
    · exact absurd hj (by simp)
    · rename_i d hd
      split at hj
      · rename_i hp
        obtain rfl : id = j := by simpa using hj
        refine ⟨?_, d, hd, hp⟩
        rw [reachList, hd]
        exact List.mem_cons_self _ _
      · obtain ⟨c, hc, hfc⟩ := findSome?_exists hj
        obtain ⟨hreach, hprop⟩ := ih hfc
        refine ⟨?_, hprop⟩
        rw [reachList, hd]
        exact List.mem_cons_of_mem _ (List.mem_flatMap.mpr ⟨c, hc, hreach⟩)

/-- If no present child matches the segment by name or type, the
child-segment search fails. -/
theorem findChildSeg_none {h : Heap} {seg : String} :
    ∀ {ids : List Nat},
      (∀ c ∈ ids, ∀ cd, alLookup h c = some cd → cd.name ≠ seg ∧ cd.typ ≠ seg) →
      findChildSeg h ids seg = none := by
  intro ids
  induction ids with
  | nil => intro _; rfl
  | cons c t ih =>
    intro hno
    rw [findChildSeg]
    split
    · rename_i cd hc
      have hns := hno c (List.mem_cons_self _ _) cd hc
      rw [if_neg (not_or_intro hns.1 hns.2)]
      exact ih fun c' hc' => hno c' (List.mem_cons_of_mem _ hc')
    · exact ih fun c' hc' => hno c' (List.mem_cons_of_mem _ hc')

theorem splitSlashAux_no_slash :
    ∀ (l : List Char) (acc : List Char), (∀ ch ∈ l, ch ≠ '/') →
      splitSlashAux l acc = [String.mk (acc.reverse ++ l)] := by
  intro l
  induction l with
  | nil => intro acc _; simp [splitSlashAux]
  | cons c t ih =>
    intro acc hno
    have hc : c ≠ '/' := hno c (List.mem_cons_self _ _)
    rw [splitSlashAux, if_neg hc, ih (c :: acc) (fun ch hch => hno ch (List.mem_cons_of_mem _ hch))]
    simp

/-- A name containing no slash splits into the single segment it is. -/
theorem splitSlash_no_slash {s : String} (h : ∀ ch ∈ s.toList, ch ≠ '/') :
    splitSlash s = [s] := by
  obtain ⟨l⟩ := s
  rw [splitSlash, splitSlashAux_no_slash _ _ (by simpa using h)]
  simp

/-! ## Claims about the control-plane side -/

/-- C1.  A response envelope carrying identifier `rid` resolves exactly the
pending request stored under `rid`: that entry is removed (so a duplicate or
late delivery of the same response is discarded with no event and no state
change), every other pending entry is untouched, and a response whose
identifier has no pending entry changes no pending entry and settles
nothing. -/
theorem response_envelope_correlation (s : ServerState) (m : InMsg) (rid : String)
    (hm : m.requestId = some rid) (hnd : (alKeys s.pending).Nodup) :
    (∀ e, alLookup s.pending rid = some e →
      (handleMessage s m).2 = [BridgeEvent.resolved rid] ∧
      alLookup (handleMessage s m).1.pending rid = none ∧
      (∀ rid2, rid2 ≠ rid →
        alLookup (handleMessage s m).1.pending rid2 = alLookup s.pending rid2) ∧
      (handleMessage (handleMessage s m).1 m).1.pending = (handleMessage s m).1.pending ∧
      (handleMessage (handleMessage s m).1 m).2 = []) ∧
    (alLookup s.pending rid = none →
      (handleMessage s m).1.pending = s.pending ∧ (handleMessage s m).2 = []) := by
  have key : ∀ t : ServerState, alLookup t.pending rid = none →
      (handleMessage t m).1.pending = t.pending ∧ (handleMessage t m).2 = [] := by
    intro t ht
    constructor <;> simp [handleMessage, hm, ht]
  constructor
  · intro e he
    have h1 : (handleMessage s m).1.pending = alErase s.pending rid := by
      simp [handleMessage, hm, he]
    have h2 : (handleMessage s m).2 = [BridgeEvent.resolved rid] := by
      simp [handleMessage, hm, he]
    have hgone : alLookup (handleMessage s m).1.pending rid = none := by
      rw [h1]
      exact alLookup_alErase_self hnd
    exact ⟨h2, hgone, fun rid2 hne => by rw [h1]; exact alLookup_alErase_ne _ _ _ hne,
      (key _ hgone).1, (key _ hgone).2⟩
  · exact key s

/-- C1 witness: a concrete table with two outstanding requests; the response
for `req_1` resolves it, removes it, leaves `req_2` pending, and a duplicate
delivery is discarded. -/
theorem response_envelope_correlation_witness :
    (handleMessage ⟨[("req_1", ⟨"moveObject"⟩), ("req_2", ⟨"findObjects"⟩)], 2, none, true⟩
        ⟨some "req_1", false, 0⟩).2 = [BridgeEvent.resolved "req_1"] ∧
    alLookup (handleMessage ⟨[("req_1", ⟨"moveObject"⟩), ("req_2", ⟨"findObjects"⟩)], 2, none, true⟩
        ⟨some "req_1", false, 0⟩).1.pending "req_1" = none ∧
    alLookup (handleMessage ⟨[("req_1", ⟨"moveObject"⟩), ("req_2", ⟨"findObjects"⟩)], 2, none, true⟩
        ⟨some "req_1", false, 0⟩).1.pending "req_2" =
      alLookup [("req_1", (⟨"moveObject"⟩ : PendingEntry)), ("req_2", ⟨"findObjects"⟩)] "req_2" := by
  have h := response_envelope_correlation
    ⟨[("req_1", ⟨"moveObject"⟩), ("req_2", ⟨"findObjects"⟩)], 2, none, true⟩
    ⟨some "req_1", false, 0⟩ "req_1" rfl (by decide)
  obtain ⟨h1, h2, h3, -, -⟩ := h.1 ⟨"moveObject"⟩ (by decide)
  exact ⟨h1, h2, h3 "req_2" (by decide)⟩

/-- C2.  When the deadline timer of pending request `rid` fires, the entry is
removed; if the stored action is one of the read-only queries
(`getFullSceneState`, `findObjects`) the caller is fulfilled with the current
last-state cache value, otherwise it is rejected with the timeout error;
other pending entries are untouched. -/
theorem timeout_fallback_policy (s : ServerState) (rid : String) (e : PendingEntry)
    (he : alLookup s.pending rid = some e) (hnd : (alKeys s.pending).Nodup) :
    ((e.action = "getFullSceneState" ∨ e.action = "findObjects") →
      (fireTimeout s rid).2 = [BridgeEvent.resolvedFromCache rid s.lastSceneState]) ∧
    (¬(e.action = "getFullSceneState" ∨ e.action = "findObjects") →
      (fireTimeout s rid).2 = [BridgeEvent.rejectedTimeout rid]) ∧
    alLookup (fireTimeout s rid).1.pending rid = none ∧
    (∀ rid2, rid2 ≠ rid →
      alLookup (fireTimeout s rid).1.pending rid2 = alLookup s.pending rid2) := by
  refine ⟨fun hq => by simp [fireTimeout, he, hq], fun hq => by simp [fireTimeout, he, hq], ?_, ?_⟩
  · have h1 : (fireTimeout s rid).1.pending = alErase s.pending rid := by
      by_cases hq : e.action = "getFullSceneState" ∨ e.action = "findObjects" <;>
        simp [fireTimeout, he, hq]
    rw [h1]
    exact alLookup_alErase_self hnd
  · intro rid2 hne
    have h1 : (fireTimeout s rid).1.pending = alErase s.pending rid := by
      by_cases hq : e.action = "getFullSceneState" ∨ e.action = "findObjects" <;>
        simp [fireTimeout, he, hq]
    rw [h1]
    exact alLookup_alErase_ne _ _ _ hne

/-- C2 witness: a timed-out scene query is fulfilled from the cache and a
timed-out mutating command is rejected, and both entries disappear. -/
theorem timeout_fallback_policy_witness :
    (fireTimeout ⟨[("req_1", ⟨"getFullSceneState"⟩)], 1, some ⟨none, true, 9⟩, true⟩ "req_1").2 =
      [BridgeEvent.resolvedFromCache "req_1" (some ⟨none, true, 9⟩)] ∧
    (fireTimeout ⟨[("req_2", ⟨"moveObject"⟩)], 2, some ⟨none, true, 9⟩, true⟩ "req_2").2 =
      [BridgeEvent.rejectedTimeout "req_2"] ∧
    alLookup (fireTimeout ⟨[("req_1", ⟨"getFullSceneState"⟩)], 1, some ⟨none, true, 9⟩, true⟩
        "req_1").1.pending "req_1" = none := by
  have hq := timeout_fallback_policy ⟨[("req_1", ⟨"getFullSceneState"⟩)], 1, some ⟨none, true, 9⟩, true⟩
    "req_1" ⟨"getFullSceneState"⟩ (by decide) (by decide)
  have hm := timeout_fallback_policy ⟨[("req_2", ⟨"moveObject"⟩)], 2, some ⟨none, true, 9⟩, true⟩
    "req_2" ⟨"moveObject"⟩ (by decide) (by decide)
  exact ⟨hq.1 (Or.inl rfl), hm.2.1 (by decide), hq.2.2.1⟩

/-- C3 counterexample.  The claim reads connection loss as failing every
still-pending request and clearing the table, citing both `close()` and the
socket `close` handler; but the `ws.on('close')` handler (the connection-loss
path, bridge-server.ts lines 122-125) only drops the client reference: with
one pending request, after the handler runs the table still holds that
request and no rejection was issued. -/
theorem connection_loss_keeps_pending_counterexample :
    (wsCloseHandler ⟨[("req_1", ⟨"moveObject"⟩)], 1, none, true⟩).1.pending =
      [("req_1", ⟨"moveObject"⟩)] ∧
    (wsCloseHandler ⟨[("req_1", ⟨"moveObject"⟩)], 1, none, true⟩).2 = [] ∧
    ([("req_1", ((⟨"moveObject"⟩ : PendingEntry)))] : List (String × PendingEntry)) ≠ [] := by
  refine ⟨rfl, rfl, by decide⟩

/-- C3 amended.  Explicitly closing the server (`close()`) rejects each of
the K pending requests exactly once with the connection-closed reason
(`'Server closed'`) and empties the table; the client-socket `close` handler,
by contrast, only marks the bridge disconnected and leaves every pending
entry in place (such entries are settled later by their own timers). -/
theorem close_rejects_all_pending (s : ServerState) (hnd : (alKeys s.pending).Nodup) :
    (closeServer s).1.pending = [] ∧
    (closeServer s).1.connected = false ∧
    (closeServer s).2 = s.pending.map (fun p => BridgeEvent.rejectedClosed p.1) ∧
    (closeServer s).2.length = s.pending.length ∧
    ((closeServer s).2).Nodup ∧
    (wsCloseHandler s).1.pending = s.pending ∧
    (wsCloseHandler s).2 = [] := by
  refine ⟨rfl, rfl, rfl, by simp [closeServer], ?_, rfl, rfl⟩
  have hinj : Function.Injective BridgeEvent.rejectedClosed := by
    intro a b hab
    cases hab
    rfl
  have hmap : (closeServer s).2 = (alKeys s.pending).map BridgeEvent.rejectedClosed := by
    simp [closeServer, alKeys, List.map_map]
  rw [hmap]
  exact hnd.map hinj

/-- C3 amended witness: closing a server with two pending requests rejects
both with the closed reason and empties the table. -/
theorem close_rejects_all_pending_witness :
    (closeServer ⟨[("req_1", ⟨"moveObject"⟩), ("req_2", ⟨"findObjects"⟩)], 2, none, true⟩).1.pending
      = [] ∧
    (closeServer ⟨[("req_1", ⟨"moveObject"⟩), ("req_2", ⟨"findObjects"⟩)], 2, none, true⟩).2 =
      [BridgeEvent.rejectedClosed "req_1", BridgeEvent.rejectedClosed "req_2"] := by
  have h := close_rejects_all_pending
    ⟨[("req_1", ⟨"moveObject"⟩), ("req_2", ⟨"findObjects"⟩)], 2, none, true⟩ (by decide)
  exact ⟨h.1, h.2.2.1⟩

/-- C4.  While no client connection is open, `sendCommand` fails immediately
with the not-connected error: no pending entry is registered and the
request-identifier counter is not incremented — the state is returned
unchanged, whatever the command and whatever the transport would have
done. -/
theorem send_while_disconnected_fails (s : ServerState) (action : String)
    (transmitThrows : Bool) (h : s.connected = false) :
    sendCommand s action transmitThrows = (s, SendOutcome.notConnected) ∧
    (sendCommand s action transmitThrows).1.pending = s.pending ∧
    (sendCommand s action transmitThrows).1.requestId = s.requestId := by
  refine ⟨by simp [sendCommand, h], ?_, ?_⟩ <;> simp [sendCommand, h]

/-- C4 witness: a disconnected bridge with one (stale) pending entry and
counter 5 rejects a new command and keeps table and counter intact. -/
theorem send_while_disconnected_fails_witness :
    sendCommand ⟨[("req_5", ⟨"findObjects"⟩)], 5, none, false⟩ "moveObject" false =
      (⟨[("req_5", ⟨"findObjects"⟩)], 5, none, false⟩, SendOutcome.notConnected) :=
  (send_while_disconnected_fails ⟨[("req_5", ⟨"findObjects"⟩)], 5, none, false⟩
    "moveObject" false rfl).1

/-- C8 counterexample.  The claim says a message carrying a `requestId` (a
response envelope) never changes the last-state cache; but `handleMessage`
caches any message with a `data` field before looking at `requestId`, so a
response envelope that carries a `data` field (as the scene-state responses
do) does update the cache: here the cache moves from `none` to the response
itself. -/
theorem response_with_data_updates_cache_counterexample :
    (⟨some "req_1", true, 7⟩ : InMsg).requestId.isSome = true ∧
    (handleMessage ⟨[], 0, none, true⟩ ⟨some "req_1", true, 7⟩).1.lastSceneState =
      some ⟨some "req_1", true, 7⟩ ∧
    (some (⟨some "req_1", true, 7⟩ : InMsg) ≠ (none : Option InMsg)) := by
  refine ⟨rfl, by simp [handleMessage, alLookup], by decide⟩

/-- C8 amended.  The last-state cache is governed solely by the presence of
the designated payload field: any inbound message carrying the `data` field
becomes the new cache value — whether or not it also carries a `requestId` —
and a message without that field never changes the cache. -/
theorem last_state_cache_update_rule (s : ServerState) (m : InMsg) :
    (handleMessage s m).1.lastSceneState =
      (if m.hasData then some m else s.lastSceneState) := by
  unfold handleMessage
  cases hr : m.requestId with
  | none => simp
  | some rid =>
    cases hl : alLookup s.pending rid <;> simp [hl]

/-- C10.  If transmitting the enriched envelope throws synchronously while
connected, the just-created timer is cancelled and the just-registered entry
removed (the entry's presence is the armed timer in this model), and the
caller is rejected with the transmit error: the resulting pending table is
exactly the table before the call, with only the identifier counter
advanced. -/
theorem send_throw_cleanup (s : ServerState) (action : String)
    (hc : s.connected = true)
    (hfresh : alLookup s.pending (reqName (s.requestId + 1)) = none) :
    sendCommand s action true =
      ({ s with requestId := s.requestId + 1 },
        SendOutcome.sendFailed (reqName (s.requestId + 1))) ∧
    (sendCommand s action true).1.pending = s.pending := by
  have h1 : alErase (alSet s.pending (reqName (s.requestId + 1)) ⟨action⟩)
      (reqName (s.requestId + 1)) = s.pending :=
    alErase_alSet_fresh _ hfresh
  obtain ⟨p, n, c, cn⟩ := s
  simp only at hc h1
  constructor <;> simp [sendCommand, hc, h1]

/-- C10 witness: a connected bridge whose transmit throws ends the call with
its table as it started and the counter moved from 1 to 2. -/
theorem send_throw_cleanup_witness :
    sendCommand ⟨[("req_1", ⟨"findObjects"⟩)], 1, none, true⟩ "moveObject" true =
      (⟨[("req_1", ⟨"findObjects"⟩)], 2, none, true⟩, SendOutcome.sendFailed "req_2") := by
  have h := send_throw_cleanup ⟨[("req_1", ⟨"findObjects"⟩)], 1, none, true⟩ "moveObject"
    rfl (by decide)
  exact h.1

/-! ## Lemmas about deep cloning -/

/-- Fresh-allocation discipline of `cloneNode`/`cloneList`: the allocation
counter only grows, the heap stays bounded by it, identities below the
incoming counter keep their bindings, and a returned clone root is the
incoming counter value. -/
theorem clone_spec (fuel : Nat) :
    (∀ (h : Heap) (next id : Nat), heapBound h next →
      next ≤ (cloneNode h next fuel id).2.1 ∧
      heapBound (cloneNode h next fuel id).1 (cloneNode h next fuel id).2.1 ∧
      (∀ j, j < next → alLookup (cloneNode h next fuel id).1 j = alLookup h j) ∧
      (∀ c, (cloneNode h next fuel id).2.2 = some c →
        next ≤ c ∧ c < (cloneNode h next fuel id).2.1)) ∧
    (∀ (h : Heap) (next : Nat) (ids : List Nat) (pid : Nat), heapBound h next →
      next ≤ (cloneList h next fuel ids pid).2.1 ∧
      heapBound (cloneList h next fuel ids pid).1 (cloneList h next fuel ids pid).2.1 ∧
      (∀ j, j < next → alLookup (cloneList h next fuel ids pid).1 j = alLookup h j)) := by
  induction fuel using Nat.strong_induction_on with
  | _ fuel ih =>
    have hnode : ∀ (h : Heap) (next id : Nat), heapBound h next →
        next ≤ (cloneNode h next fuel id).2.1 ∧
        heapBound (cloneNode h next fuel id).1 (cloneNode h next fuel id).2.1 ∧
        (∀ j, j < next → alLookup (cloneNode h next fuel id).1 j = alLookup h j) ∧
        (∀ c, (cloneNode h next fuel id).2.2 = some c →
          next ≤ c ∧ c < (cloneNode h next fuel id).2.1) := by
      intro h next id hb
      match fuel with
      | 0 =>
        refine ⟨?_, ?_, ?_, ?_⟩
        · simp [cloneNode]
        · simpa [cloneNode] using hb
        · intro j hj; simp [cloneNode]
        · intro c hc; simp [cloneNode] at hc
      | f + 1 =>
        have ihl := (ih f (Nat.lt_succ_self f)).2
        cases hd : alLookup h id with
        | none =>
          refine ⟨?_, ?_, ?_, ?_⟩
          · simp [cloneNode, hd]
          · simpa [cloneNode, hd] using hb
          · intro j hj; simp [cloneNode, hd]
          · intro c hc; simp [cloneNode, hd] at hc
        | some d =>
          have hb0 : heapBound (alSet h next { d with parent := none, children := [] }) (next + 1) := by
            intro k hk
            rcases alKeys_alSet_mem hk with hk' | hk'
            · exact Nat.lt_succ_of_lt (hb k hk')
            · omega
          obtain ⟨hl1, hl2, hl3⟩ :=
            ihl (alSet h next { d with parent := none, children := [] }) (next + 1) d.children next hb0
          rcases hLr : cloneList (alSet h next { d with parent := none, children := [] }) (next + 1) f d.children next with ⟨hL, nL, kids⟩
          have hl1' : next + 1 ≤ nL := by simpa [hLr] using hl1
          have hl2' : heapBound hL nL := by simpa [hLr] using hl2
          have hl3' : ∀ j, j < next + 1 →
              alLookup hL j = alLookup (alSet h next { d with parent := none, children := [] }) j := by
            intro j hj
            simpa [hLr] using hl3 j hj
          have hkey : cloneNode h next (f + 1) id =
              (alSet hL next { d with parent := none, children := kids }, nL, some next) := by
            simp only [cloneNode, hd, hLr]
          have hk1 : (cloneNode h next (f + 1) id).1 =
              alSet hL next { d with parent := none, children := kids } := by rw [hkey]
          have hk2 : (cloneNode h next (f + 1) id).2.1 = nL := by rw [hkey]
          have hk3 : (cloneNode h next (f + 1) id).2.2 = some next := by rw [hkey]
          have hnext : next < nL := lt_of_lt_of_le (Nat.lt_succ_self next) hl1'
          refine ⟨?_, ?_, ?_, ?_⟩
          · rw [hk2]; exact le_of_lt hnext
          · rw [hk1, hk2]
            intro k hk
            rcases alKeys_alSet_mem hk with hk' | hk'
            · exact hl2' k hk'
            · omega
          · intro j hj
            rw [hk1]
            rw [alLookup_alSet_ne _ _ _ _ (by omega), hl3' j (Nat.lt_succ_of_lt hj),
              alLookup_alSet_ne _ _ _ _ (by omega)]
          · intro c hc
            rw [hk3] at hc
            obtain rfl : next = c := by simpa using hc
            rw [hk2]
            exact ⟨le_refl _, hnext⟩
    refine ⟨hnode, ?_⟩
    intro h next ids pid hb
    induction ids generalizing h next with
    | nil =>
      refine ⟨?_, ?_, ?_⟩
      · simp [cloneList]
      · simpa [cloneList] using hb
      · intro j hj; simp [cloneList]
    | cons i rest ihr =>
      obtain ⟨hn1, hn2, hn3, hn4⟩ := hnode h next i hb
      rcases hcn : cloneNode h next fuel i with ⟨h1, next1, r⟩
      have hn1' : next ≤ next1 := by simpa [hcn] using hn1
      have hn2' : heapBound h1 next1 := by simpa [hcn] using hn2
      have hn3' : ∀ j, j < next → alLookup h1 j = alLookup h j := by
        intro j hj
        have := hn3 j hj
        rwa [hcn] at this
      cases r with
      | none =>
        have hkey : cloneList h next fuel (i :: rest) pid = cloneList h1 next1 fuel rest pid := by
          simp only [cloneList, hcn]
        rw [hkey]
        obtain ⟨hr1, hr2, hr3⟩ := ihr h1 next1 hn2'
        exact ⟨le_trans hn1' hr1, hr2,
          fun j hj => (hr3 j (lt_of_lt_of_le hj hn1')).trans (hn3' j hj)⟩
      | some cid =>
        have hc12 : next ≤ cid ∧ cid < next1 := by
          have := hn4 cid
          rw [hcn] at this
          exact this rfl
        cases halc : alLookup h1 cid with
        | none =>
          have hkey : cloneList h next fuel (i :: rest) pid =
              ((cloneList h1 next1 fuel rest pid).1,
               (cloneList h1 next1 fuel rest pid).2.1,
               cid :: (cloneList h1 next1 fuel rest pid).2.2) := by
            simp only [cloneList, hcn, halc]
          rw [hkey]
          obtain ⟨hr1, hr2, hr3⟩ := ihr h1 next1 hn2'
          exact ⟨le_trans hn1' hr1, hr2,
            fun j hj => (hr3 j (lt_of_lt_of_le hj hn1')).trans (hn3' j hj)⟩
        | some cd =>
          have hb2 : heapBound (alSet h1 cid { cd with parent := some pid }) next1 := by
            intro k hk
            rcases alKeys_alSet_mem hk with hk' | hk'
            · exact hn2' k hk'
            · omega
          have hkey : cloneList h next fuel (i :: rest) pid =
              ((cloneList (alSet h1 cid { cd with parent := some pid }) next1 fuel rest pid).1,
               (cloneList (alSet h1 cid { cd with parent := some pid }) next1 fuel rest pid).2.1,
               cid :: (cloneList (alSet h1 cid { cd with parent := some pid }) next1 fuel rest pid).2.2) := by
            simp only [cloneList, hcn, halc]
          rw [hkey]
          obtain ⟨hr1, hr2, hr3⟩ := ihr (alSet h1 cid { cd with parent := some pid }) next1 hb2
          refine ⟨le_trans hn1' hr1, hr2, ?_⟩
          intro j hj
          rw [hr3 j (lt_of_lt_of_le hj hn1'),
            alLookup_alSet_ne _ _ _ _ (by omega), hn3' j hj]

/-! ## Claims about the runtime side -/

/-- The lens step of the tween never moves the camera position. -/
theorem tweenApplyLens_pos (tw : CameraTween) (t : ℚ) (cd : NodeData) :
    (tweenApplyLens tw t cd).pos = cd.pos := by
  obtain ⟨st, dur, fp, tp, fla, tla, ff, tf, fn, tn, ffr, tfr⟩ := tw
  cases hp : cd.isPerspective <;> rcases ff <;> rcases tf <;> rcases fn <;> rcases tn <;>
    rcases ffr <;> rcases tfr <;> simp [tweenApplyLens, hp]

/-- C5.  A decoded command envelope whose action tag is outside the dispatch
table yields the structured failure `{success:false, error:"Unknown action:
..."}` without touching the state, and when the envelope carried a (truthy)
`requestId` over an open socket the response envelope echoing that same
identifier is still transmitted; no response is ever transmitted for an
envelope without a `requestId`.  (`handleCommand` cannot raise: it is a
total function whose handler errors are all structured results.) -/
theorem unknown_action_structured_failure (s : ClientState) (now : ℚ) (c : ClientCmd)
    (rid : String) (hunk : c.action ∉ knownActions) (hrid : c.requestId = some rid)
    (hne : rid ≠ "") (hopen : s.wsOpen = true) :
    (handleCommand s now c).2.1 =
      { success := false, error := some ("Unknown action: " ++ c.action) } ∧
    (handleCommand s now c).1 = s ∧
    (handleCommand s now c).2.2 =
      some ⟨rid, { success := false, error := some ("Unknown action: " ++ c.action) }⟩ ∧
    (∀ c' : ClientCmd, c'.requestId = none → (handleCommand s now c').2.2 = none) := by
  simp only [knownActions, List.mem_cons, List.not_mem_nil, or_false, not_or] at hunk
  obtain ⟨h1, h2, h3, h4, h5, h6, h7, h8, h9, h10, h11, h12, h13, h14, h15, h16, h17, h18⟩ :=
    hunk
  refine ⟨?_, ?_, ?_, ?_⟩
  · simp [handleCommand, h1, h2, h3, h4, h5, h6, h7, h8, h9, h10, h11, h12, h13, h14, h15,
      h16, h17, h18]
  · simp [handleCommand, h1, h2, h3, h4, h5, h6, h7, h8, h9, h10, h11, h12, h13, h14, h15,
      h16, h17, h18]
  · simp [handleCommand, sendResponse, h1, h2, h3, h4, h5, h6, h7, h8, h9, h10, h11, h12,
      h13, h14, h15, h16, h17, h18, hrid, hne, hopen]
  · intro c' hc'
    simp [handleCommand, sendResponse, hc']

/-- C5 witness: an unrecognized action against the demo scene is answered
with the structured failure under its request identifier. -/
theorem unknown_action_structured_failure_witness :
    (handleCommand demoScene 0 { action := "explodeScene", requestId := some "req_7" }).2.1 =
      { success := false, error := some ("Unknown action: " ++ "explodeScene") } ∧
    (handleCommand demoScene 0 { action := "explodeScene", requestId := some "req_7" }).2.2 =
      some ⟨"req_7",
        { success := false, error := some ("Unknown action: " ++ "explodeScene") }⟩ := by
  have h := unknown_action_structured_failure demoScene 0
    { action := "explodeScene", requestId := some "req_7" } "req_7" (by decide) rfl
    (by decide) rfl
  exact ⟨h.1, h.2.2.1⟩

/-- C6.  Duplicating an existing source object under a new name with a
positional offset: the operation succeeds reporting the new name; the clone
(a fresh node, identity `s.nextId`) carries the source's position at clone
time plus the offset per axis, is attached under the source's current
parent (the graph root when the source has none) whose child list gains
exactly the clone, and is registered under the new name; the source node's
own binding is unchanged; and the clone is independently removable:
removing the new name succeeds, detaches exactly the clone from that
parent, and leaves the source binding as it was before the duplication. -/
theorem duplicate_entity_semantics (s : ClientState) (src newName : String)
    (off : Vec3) (sid : Nat) (d pd : NodeData)
    (hb : heapBound s.nodes s.nextId)
    (hfind : findObject s src = some sid)
    (hsd : alLookup s.nodes sid = some d)
    (hpd : alLookup s.nodes (d.parent.getD s.rootId) = some pd)
    (hsp : sid ≠ d.parent.getD s.rootId)
    (hcb : ∀ c ∈ pd.children, c < s.nextId) :
    (duplicateObject s src newName (some off)).2 =
      { success := true, resId := some newName } ∧
    (∃ kids, alLookup (duplicateObject s src newName (some off)).1.nodes s.nextId =
      some { d with name := newName, pos := vadd d.pos off,
                    parent := some (d.parent.getD s.rootId), children := kids }) ∧
    alLookup (duplicateObject s src newName (some off)).1.objects newName = some s.nextId ∧
    (alLookup (duplicateObject s src newName (some off)).1.nodes
        (d.parent.getD s.rootId)).map NodeData.children =
      some (pd.children ++ [s.nextId]) ∧
    alLookup (duplicateObject s src newName (some off)).1.nodes sid = some d ∧
    (removeObject (duplicateObject s src newName (some off)).1 newName).2 =
      { success := true } ∧
    (alLookup (removeObject (duplicateObject s src newName (some off)).1 newName).1.nodes
        s.nextId).map NodeData.parent = some none ∧
    (alLookup (removeObject (duplicateObject s src newName (some off)).1 newName).1.nodes
        (d.parent.getD s.rootId)).map NodeData.children = some pd.children ∧
    alLookup (removeObject (duplicateObject s src newName (some off)).1 newName).1.nodes sid =
      some d := by
  have hsidlt : sid < s.nextId := hb sid (alLookup_mem_keys hsd)
  have hpidlt : d.parent.getD s.rootId < s.nextId := hb _ (alLookup_mem_keys hpd)
  have hsc : ∀ (l : Heap) (v : NodeData),
      alLookup (alSet l s.nextId v) sid = alLookup l sid :=
    fun l v => alLookup_alSet_ne l _ _ v (by omega)
  have hpc : ∀ (l : Heap) (v : NodeData),
      alLookup (alSet l s.nextId v) (d.parent.getD s.rootId) =
        alLookup l (d.parent.getD s.rootId) :=
    fun l v => alLookup_alSet_ne l _ _ v (by omega)
  have hsp' : ∀ (l : Heap) (v : NodeData),
      alLookup (alSet l (d.parent.getD s.rootId) v) sid = alLookup l sid :=
    fun l v => alLookup_alSet_ne l _ _ v hsp
  have hcp' : ∀ (l : Heap) (v : NodeData),
      alLookup (alSet l (d.parent.getD s.rootId) v) s.nextId =
        alLookup l s.nextId :=
    fun l v => alLookup_alSet_ne l _ _ v (by omega)
  obtain ⟨-, hl⟩ := clone_spec s.nodes.length
  rcases hLr : cloneList (alSet s.nodes s.nextId { d with parent := none, children := [] }) (s.nextId + 1) s.nodes.length d.children s.nextId with ⟨hc, nc, kids⟩
  have hb0 : heapBound (alSet s.nodes s.nextId { d with parent := none, children := [] }) (s.nextId + 1) := by
    intro k hk
    rcases alKeys_alSet_mem hk with hk' | hk'
    · exact Nat.lt_succ_of_lt (hb k hk')
    · omega
  obtain ⟨hl1, hl2, hl3⟩ := hl (alSet s.nodes s.nextId { d with parent := none, children := [] }) (s.nextId + 1) d.children s.nextId hb0
  have hl3' : ∀ j, j < s.nextId + 1 →
      alLookup hc j = alLookup (alSet s.nodes s.nextId { d with parent := none, children := [] }) j := by
    intro j hj
    simpa [hLr] using hl3 j hj
  have hcs : alLookup hc sid = some d := by
    rw [hl3' sid (by omega), hsc, hsd]
  have hcp : alLookup hc (d.parent.getD s.rootId) = some pd := by
    rw [hl3' _ (by omega), hpc, hpd]
  have hcn : cloneNode s.nodes s.nextId (s.nodes.length + 1) sid =
      (alSet hc s.nextId { d with parent := none, children := kids }, nc, some s.nextId) := by
    simp only [cloneNode, hsd, hLr]
  have hmem : s.nextId ∈ pd.children ++ [s.nextId] := by simp
  have hnotmem : s.nextId ∉ pd.children := fun hh => absurd (hcb _ hh) (lt_irrefl _)
  have herase : (pd.children ++ [s.nextId]).erase s.nextId = pd.children := by
    rw [List.erase_append_right _ hnotmem, List.erase_cons_head, List.append_nil]
  have hdup : duplicateObject s src newName (some off) =
      ({ s with
          nodes := alSet (alSet (alSet (alSet (alSet hc s.nextId { d with parent := none, children := kids }) s.nextId { d with name := newName, parent := none, children := kids }) s.nextId { d with name := newName, pos := vadd d.pos off, parent := none, children := kids }) (d.parent.getD s.rootId) { pd with children := pd.children ++ [s.nextId] }) s.nextId { d with name := newName, pos := vadd d.pos off, parent := some (d.parent.getD s.rootId), children := kids },
          nextId := nc,
          objects := alSet s.objects newName s.nextId },
       { success := true, resId := some newName }) := by
    simp only [duplicateObject, hfind, hcn, addChild, alLookup_alSet_self, hsc, hpc,
      hsp', hcp', hcs, hcp, Option.getD_some]
  have hfind2 : findObject (duplicateObject s src newName (some off)).1 newName =
      some s.nextId := by
    rw [hdup]
    simp only [findObject, alLookup_alSet_self]
  have hrem : removeObject (duplicateObject s src newName (some off)).1 newName =
      ({ (duplicateObject s src newName (some off)).1 with
          nodes := alSet (alSet (duplicateObject s src newName (some off)).1.nodes (d.parent.getD s.rootId) { pd with children := pd.children }) s.nextId { d with name := newName, pos := vadd d.pos off, parent := none, children := kids },
          objects := alErase (alSet s.objects newName s.nextId) newName,
          rotating := alErase s.rotating newName },
       { success := true }) := by
    rw [removeObject.eq_def, hfind2, hdup]
    simp only [removeFromParent, alLookup_alSet_self, hpc, hsc, hsp', hcp', hcs, hcp,
      hmem, if_true, herase]
  refine ⟨?_, ⟨kids, ?_⟩, ?_, ?_, ?_, ?_, ?_, ?_, ?_⟩
  · rw [hdup]
  · rw [hdup]
    simp only [alLookup_alSet_self]
  · rw [hdup]
    simp only [alLookup_alSet_self]
  · rw [hdup]
    simp only [alLookup_alSet_self, hpc, hcp, hcp']
    rfl
  · rw [hdup]
    simp only [hsc, hsp', hcs]
  · rw [hrem]
  · rw [hrem]
    simp only [alLookup_alSet_self]
    rfl
  · rw [hrem, hdup]
    simp only [alLookup_alSet_self, hpc, hcp, hcp']
    rfl
  · rw [hrem, hdup]
    simp only [hsc, hsp', hcs]

/-- C6 witness: duplicating the demo mesh at `[1,2,3]` with offset `[3,0,0]`
yields a registered clone at `[4,2,3]` that is then independently
removable. -/
theorem duplicate_entity_semantics_witness :
    (duplicateObject demoScene "box" "box2" (some ⟨3, 0, 0⟩)).2 =
      { success := true, resId := some "box2" } ∧
    (alLookup (duplicateObject demoScene "box" "box2" (some ⟨3, 0, 0⟩)).1.nodes 3).map
        NodeData.pos = some ⟨4, 2, 3⟩ ∧
    alLookup (duplicateObject demoScene "box" "box2" (some ⟨3, 0, 0⟩)).1.objects "box2" =
      some 3 ∧
    (removeObject (duplicateObject demoScene "box" "box2" (some ⟨3, 0, 0⟩)).1 "box2").2 =
      { success := true } := by
  have h := duplicate_entity_semantics demoScene "box" "box2" ⟨3, 0, 0⟩ 1
    { name := "box", typ := "Mesh", pos := ⟨1, 2, 3⟩, parent := some 0, matOpacity := some 1 }
    { name := "", typ := "Scene", children := [1, 2] }
    (by intro k hk; simp [demoScene, alKeys] at hk ⊢; omega)
    rfl rfl rfl (by decide) (by decide)
  refine ⟨h.1, ?_, h.2.2.1, h.2.2.2.2.2.1⟩
  obtain ⟨kids, hk⟩ := h.2.1
  show (alLookup (duplicateObject demoScene "box" "box2" (some ⟨3, 0, 0⟩)).1.nodes
      demoScene.nextId).map NodeData.pos = some ⟨4, 2, 3⟩
  rw [hk, Option.map_some']
  norm_num [vadd]

/-- C9 counterexample.  The claim promises that after a successful removal
a lookup by the removed name reports not-found and a duplicate by that name
fails; but names are not unique: in `twinScene` two distinct nodes are both
named `"a"` (the registry points at the first).  Removing `"a"` succeeds,
yet the subsequent lookup finds the other node (identity 2) and a duplicate
sourced from `"a"` succeeds as well. -/
theorem remove_then_lookup_counterexample :
    (removeObject twinScene "a").2 = { success := true } ∧
    findObject (removeObject twinScene "a").1 "a" = some 2 ∧
    (duplicateObject (removeObject twinScene "a").1 "a" "a2" none).2.success = true := by
  refine ⟨by decide, by decide, ?_⟩
  simp [duplicateObject, cloneNode, cloneList, addChild, removeObject, removeFromParent,
    findObject, getByName, getByPred, pathLookup, walkParts, findChildSeg, splitSlash,
    splitSlashAux, twinScene, alLookup, alSet, alErase, List.findSome?]

/-- C9 amended.  After `removeObject` succeeds for a name, the removed node
is detached (its parent link is cleared and, when the parent's child list
held no duplicates, it no longer appears there), and both the registry
entry and the per-frame rotation entry for the name are gone.  Provided no
node still reachable from the graph root carries that name and no root
child's type tag equals it (the name carries no slash), a subsequent lookup
by the name reports not-found and a subsequent duplicate naming it as
source fails with the not-found error.  Without those uniqueness provisos
the lookup can still find a same-named survivor (see the
counterexample). -/
theorem remove_deregisters_and_lookup_misses (s : ClientState) (n : String)
    (oid p : Nat) (d pd : NodeData)
    (hfind : findObject s n = some oid)
    (hd : alLookup s.nodes oid = some d)
    (hpar : d.parent = some p)
    (hpd : alLookup s.nodes p = some pd)
    (hmem : oid ∈ pd.children)
    (hop : oid ≠ p)
    (hobj : (alKeys s.objects).Nodup)
    (hrot : (alKeys s.rotating).Nodup)
    (huniq : ∀ j ∈ reachList (removeObject s n).1.nodes
        (removeObject s n).1.nodes.length (removeObject s n).1.rootId,
        ∀ dj, alLookup (removeObject s n).1.nodes j = some dj → dj.name ≠ n)
    (htype : ∀ rd, alLookup (removeObject s n).1.nodes (removeObject s n).1.rootId =
        some rd → ∀ c ∈ rd.children, ∀ cd,
        alLookup (removeObject s n).1.nodes c = some cd → cd.name ≠ n ∧ cd.typ ≠ n)
    (hslash : ∀ ch ∈ n.toList, ch ≠ '/') :
    (removeObject s n).2 = { success := true } ∧
    (alLookup (removeObject s n).1.nodes oid).map NodeData.parent = some none ∧
    alLookup (removeObject s n).1.nodes p =
      some { pd with children := pd.children.erase oid } ∧
    (pd.children.Nodup → oid ∉ pd.children.erase oid) ∧
    alLookup (removeObject s n).1.objects n = none ∧
    alLookup (removeObject s n).1.rotating n = none ∧
    findObject (removeObject s n).1 n = none ∧
    (∀ newName off, (duplicateObject (removeObject s n).1 n newName off).2 =
      { success := false, error := some ("Source object not found: " ++ n) }) := by
  have hrm : removeObject s n =
      ({ s with
          nodes := alSet (alSet s.nodes p { pd with children := pd.children.erase oid })
            oid { d with parent := none },
          objects := alErase s.objects n,
          rotating := alErase s.rotating n },
       { success := true }) := by
    rw [removeObject.eq_def, hfind]
    simp only [removeFromParent, hd, hpar, hpd, hmem, if_true]
  have hobj' : alLookup (removeObject s n).1.objects n = none := by
    rw [hrm]
    exact alLookup_alErase_self hobj
  have hrot' : alLookup (removeObject s n).1.rotating n = none := by
    rw [hrm]
    exact alLookup_alErase_self hrot
  have hgbn : getByName (removeObject s n).1 n = none := by
    cases hg : getByName (removeObject s n).1 n with
    | none => rfl
    | some j =>
      rw [getByName] at hg
      obtain ⟨hreach, dj, hdj, hname⟩ := getByPred_found hg
      exact absurd (of_decide_eq_true hname) (huniq j hreach dj hdj)
  have hpath : pathLookup (removeObject s n).1 n = none := by
    rw [pathLookup.eq_def, splitSlash_no_slash hslash]
    cases hr : alLookup (removeObject s n).1.nodes (removeObject s n).1.rootId with
    | none => simp [walkParts, hr]
    | some rd =>
      have hseg : findChildSeg (removeObject s n).1.nodes rd.children n = none :=
        findChildSeg_none (fun c hc cd hcd => htype rd hr c hc cd hcd)
      simp [walkParts, hr, hseg]
  have hlook : findObject (removeObject s n).1 n = none := by
    rw [findObject.eq_def]
    simp only [hobj', hgbn, hpath]
  refine ⟨?_, ?_, ?_, ?_, hobj', hrot', hlook, ?_⟩
  · rw [hrm]
  · rw [hrm]
    simp only [alLookup_alSet_self, Option.map_some']
  · rw [hrm]
    show alLookup (alSet (alSet s.nodes p { pd with children := pd.children.erase oid })
        oid { d with parent := none }) p = some { pd with children := pd.children.erase oid }
    rw [alLookup_alSet_ne _ _ _ _ (Ne.symm hop), alLookup_alSet_self]
  · intro hnd
    exact hnd.not_mem_erase
  · intro newName off
    rw [duplicateObject.eq_def, hlook]

/-- C9 amended witness: removing the registered demo mesh clears its
registry entry, detaches it, and makes both the lookup and a duplicate by
the old name fail. -/
theorem remove_deregisters_and_lookup_misses_witness :
    (removeObject demoScene "box").2 = { success := true } ∧
    alLookup (removeObject demoScene "box").1.objects "box" = none ∧
    findObject (removeObject demoScene "box").1 "box" = none ∧
    (duplicateObject (removeObject demoScene "box").1 "box" "b2" none).2 =
      { success := false, error := some ("Source object not found: " ++ "box") } := by
  have h := remove_deregisters_and_lookup_misses demoScene "box" 1 0
    { name := "box", typ := "Mesh", pos := ⟨1, 2, 3⟩, parent := some 0, matOpacity := some 1 }
    { name := "", typ := "Scene", children := [1, 2] }
    rfl rfl rfl rfl (by decide) (by decide) (by decide) (by decide)
    (by decide) (by decide) (by decide)
  exact ⟨h.1, h.2.2.2.2.1, h.2.2.2.2.2.2.1, h.2.2.2.2.2.2.2 "b2" none⟩

/-- C7 counterexample.  The claim gives the interpolation parameter as
`clamp((now - startTime)/duration, 0, 1)`, but the source computes
`min(1, ·)` with no lower clamp: ticking the demo transition (start 100,
duration 2000, from `[0,0,10]` to `[10,20,30]`) at `now = 0` puts the camera
at `[-1/2, -1, 9]`, while the claimed clamped parameter (0) would leave it
at `[0,0,10]`. -/
theorem tween_no_lower_clamp_counterexample :
    (alLookup (update { demoScene with cameraTween := some demoTween } 0).nodes 2).map
        NodeData.pos = some ⟨-1/2, -1, 9⟩ ∧
    lerpVec ⟨0, 0, 10⟩ ⟨10, 20, 30⟩ (max 0 (min 1 ((0 - 100) / 2000))) = ⟨0, 0, 10⟩ ∧
    (⟨-1/2, -1, 9⟩ : Vec3) ≠ ⟨0, 0, 10⟩ := by
  refine ⟨?_, ?_, ?_⟩
  · norm_num [update, applyRotations, tweenStep, getActiveCamera, getByPred, alLookup,
      alSet, demoScene, demoTween, tweenParam, tweenApplyLens, lerpVec, lerpQ,
      List.findSome?, min_def, max_def]
  · norm_num [lerpVec, lerpQ, min_def, max_def]
  · simp only [ne_eq, Vec3.mk.injEq]
    norm_num

/-- C7 amended.  For every active transition with positive duration and
every tick at `now ≥ startTime` (the only reachable case under the monotone
clock that stamped `startTime`): the parameter is
`t = min(1, (now-startTime)/duration)`, which equals the claimed
`clamp((now-startTime)/duration, 0, 1)` in this regime; the camera position
becomes the per-axis linear interpolation of the endpoints at `t`; and once
`now ≥ startTime + duration`, `t = 1` and the transition state is
cleared. -/
theorem tween_linear_interpolation (s : ClientState) (tw : CameraTween) (camId : Nat)
    (cd : NodeData) (now : ℚ)
    (htw : s.cameraTween = some tw) (hcam : getActiveCamera s = some camId)
    (hcd : alLookup s.nodes camId = some cd)
    (hdur : 0 < tw.duration) (hnow : tw.startTime ≤ now) :
    tweenParam tw now = min 1 ((now - tw.startTime) / tw.duration) ∧
    tweenParam tw now = max 0 (min 1 ((now - tw.startTime) / tw.duration)) ∧
    (alLookup (tweenStep s now).nodes camId).map NodeData.pos =
      some (lerpVec tw.fromPos tw.toPos (tweenParam tw now)) ∧
    (tw.startTime + tw.duration ≤ now →
      tweenParam tw now = 1 ∧ (tweenStep s now).cameraTween = none) := by
  have hd' : max 0 tw.duration = tw.duration := max_eq_right hdur.le
  have ht : tweenParam tw now = min 1 ((now - tw.startTime) / tw.duration) := by
    simp only [tweenParam, hd']
    rw [if_neg hdur.ne']
  have hx0 : (0 : ℚ) ≤ (now - tw.startTime) / tw.duration :=
    div_nonneg (sub_nonneg.mpr hnow) hdur.le
  have key : (alLookup (tweenStep s now).nodes camId).map NodeData.pos =
      some (lerpVec tw.fromPos tw.toPos (tweenParam tw now)) ∧
      ((1 : ℚ) ≤ tweenParam tw now → (tweenStep s now).cameraTween = none) := by
    rcases htgt : tw.toLookAt with _ | tgt
    · simp only [tweenStep, htw, hcam, hcd, htgt, alLookup_alSet_self]
      constructor
      · split <;> simp [alLookup_alSet_self, tweenApplyLens_pos]
      · intro h1
        rw [if_pos h1]
    · simp only [tweenStep, htw, hcam, hcd, htgt, alLookup_alSet_self]
      constructor
      · split <;> simp [alLookup_alSet_self, tweenApplyLens_pos]
      · intro h1
        rw [if_pos h1]
  refine ⟨ht, ?_, key.1, ?_⟩
  · rw [ht]
    exact (max_eq_right (le_min (by norm_num) hx0)).symm
  · intro hend
    have h1x : (1 : ℚ) ≤ (now - tw.startTime) / tw.duration := by
      rw [le_div_iff₀ hdur, one_mul]
      linarith
    have ht1 : tweenParam tw now = 1 := by
      rw [ht]
      exact min_eq_left h1x
    exact ⟨ht1, key.2 (by rw [ht1])⟩

/-- C7 amended witness: the demo transition (duration 2000) ticked at
`now = start + 1000` has `t = 1/2` and the camera exactly halfway per axis;
ticked at `now = start + 2000` it has `t = 1` and is cleared. -/
theorem tween_linear_interpolation_witness :
    tweenParam demoTween 1100 = 1/2 ∧
    (alLookup (tweenStep { demoScene with cameraTween := some demoTween } 1100).nodes 2).map
        NodeData.pos = some ⟨5, 10, 20⟩ ∧
    tweenParam demoTween 2100 = 1 ∧
    (tweenStep { demoScene with cameraTween := some demoTween } 2100).cameraTween = none := by
  have hcam : getActiveCamera { demoScene with cameraTween := some demoTween } = some 2 := by
    simp [getActiveCamera, demoScene, getByPred, alLookup, List.findSome?]
  have hcd : alLookup ({ demoScene with cameraTween := some demoTween } : ClientState).nodes
      2 = some { name := "cam", typ := "PerspectiveCamera", pos := ⟨0, 0, 10⟩,
                 parent := some 0, isCamera := true, isPerspective := true } := by
    simp [demoScene, alLookup]
  have h1 := tween_linear_interpolation { demoScene with cameraTween := some demoTween }
    demoTween 2 _ 1100 rfl hcam hcd (by norm_num [demoTween]) (by norm_num [demoTween])
  have h2 := tween_linear_interpolation { demoScene with cameraTween := some demoTween }
    demoTween 2 _ 2100 rfl hcam hcd (by norm_num [demoTween]) (by norm_num [demoTween])
  have htp : tweenParam demoTween 1100 = 1/2 := by
    rw [h1.1]
    norm_num [demoTween, min_def]
  refine ⟨htp, ?_, ?_, ?_⟩
  · rw [h1.2.2.1, htp]
    norm_num [demoTween, lerpVec, lerpQ]
  · exact (h2.2.2.2 (by norm_num [demoTween])).1
  · exact (h2.2.2.2 (by norm_num [demoTween])).2

end ThrelteMCP
